import Mathlib

/-!
Verification of the FOMolt3D round-settlement engine.

Shallow embedding of the Rust/Anchor program `programs/fomolt3d`:
* `math.rs` — pricing curve, bps splits, dividend shares, timer extension;
* `instructions/buy_keys.rs` — purchase handler with fee waterfall;
* `instructions/claim.rs` — dividend/winner claim handler;
* `instructions/claim_referral_earnings.rs` — referral-earnings claim;
* `instructions/start_new_round.rs` — round transition.

Machine integers are modelled as `Nat` (u64 / u128 / u32) and `Int` (i64),
with every checked operation made explicit via `Option`: `none` models the
Rust `checked_*` failure (`FomoltError::Overflow`).  Pubkeys are modelled as
`Nat`, with `0` playing the role of `Pubkey::default()`.  PDA-derivation
checks are modelled as holding for genuine records (every `PlayerState`
account is created at the PDA derived from its own `player` field, so the
re-derivation check in the handler always passes for a deserialized record).
Account bump seeds, events and rent are storage-layer artifacts with no
effect on the settlement logic and are omitted.
-/

/-- Largest u64 value, `u64::MAX`. -/
def U64_MAX : Nat := 2 ^ 64 - 1

/-- Largest u128 value, `u128::MAX`. -/
def U128_MAX : Nat := 2 ^ 128 - 1

/-- Largest u32 value, `u32::MAX`. -/
def U32_MAX : Nat := 2 ^ 32 - 1

/-- Smallest i64 value, `i64::MIN`. -/
def I64_MIN : Int := -(2 ^ 63)

/-- Largest i64 value, `i64::MAX`. -/
def I64_MAX : Int := 2 ^ 63 - 1

/-- Rust `u128::checked_mul`. -/
def checked_mul_u128 (a b : Nat) : Option Nat :=
  if a * b ≤ U128_MAX then some (a * b) else none

/-- Rust `u128::checked_add`. -/
def checked_add_u128 (a b : Nat) : Option Nat :=
  if a + b ≤ U128_MAX then some (a + b) else none

/-- Rust `u128::checked_sub` (underflow on `b > a`). -/
def checked_sub (a b : Nat) : Option Nat :=
  if b ≤ a then some (a - b) else none

/-- Rust `u128::checked_div` (fails only on division by zero). -/
def checked_div_u128 (a b : Nat) : Option Nat :=
  if b = 0 then none else some (a / b)

/-- Rust `u64::checked_add`. -/
def checked_add_u64 (a b : Nat) : Option Nat :=
  if a + b ≤ U64_MAX then some (a + b) else none

/-- Rust `u32::checked_add`. -/
def checked_add_u32 (a b : Nat) : Option Nat :=
  if a + b ≤ U32_MAX then some (a + b) else none

/-- Rust `i64::checked_add`. -/
def checked_add_i64 (a b : Int) : Option Int :=
  if I64_MIN ≤ a + b ∧ a + b ≤ I64_MAX then some (a + b) else none

/-- Rust `u64::try_from(u128)` — succeeds iff the value fits in a u64. -/
def u64_try_from (a : Nat) : Option Nat :=
  if a ≤ U64_MAX then some a else none

/-- `math.rs::calculate_cost`: total cost for buying `keys_to_buy` keys
starting from supply `current_supply`, via the closed-form arithmetic-series
formula `n * base_price + price_increment * n * (2k + n - 1) / 2` with u128
intermediates; every step checked. -/
def calculate_cost (current_supply keys_to_buy base_price price_increment : Nat) :
    Option Nat :=
  match checked_mul_u128 keys_to_buy base_price with
  | none => none
  | some base_cost =>
  match checked_mul_u128 current_supply 2 with
  | none => none
  | some k2 =>
  match checked_add_u128 k2 keys_to_buy with
  | none => none
  | some k2n =>
  match checked_sub k2n 1 with
  | none => none
  | some k2n1 =>
  match checked_mul_u128 keys_to_buy k2n1 with
  | none => none
  | some series_numerator =>
  match checked_mul_u128 price_increment series_numerator with
  | none => none
  | some series_product =>
  match checked_div_u128 series_product 2 with
  | none => none
  | some series_cost =>
  match checked_add_u128 base_cost series_cost with
  | none => none
  | some total => u64_try_from total

/-- `math.rs::calculate_bps_split`: `amount * bps / 10_000` with u128
intermediates, truncated back to u64. -/
def calculate_bps_split (amount bps : Nat) : Option Nat :=
  match checked_mul_u128 amount bps with
  | none => none
  | some p =>
  match checked_div_u128 p 10000 with
  | none => none
  | some q => u64_try_from q

/-- `math.rs::calculate_dividend_share`: a player's proportional dividend
share `(player_keys * total_dividend_pool) / total_keys`, zero when either
the player's keys or the total keys are zero. -/
def calculate_dividend_share (player_keys total_dividend_pool total_keys : Nat) :
    Option Nat :=
  if total_keys = 0 ∨ player_keys = 0 then some 0
  else
    match checked_mul_u128 player_keys total_dividend_pool with
    | none => none
    | some p =>
    match checked_div_u128 p total_keys with
    | none => none
    | some q => u64_try_from q

/-- `math.rs::calculate_timer_extension`: new `timer_end` after a purchase —
`max(current_time + extension, current_timer_end)` clamped to
`round_start + max_timer_secs`. -/
def calculate_timer_extension (current_time extension_secs current_timer_end
    round_start max_timer_secs : Int) : Option Int :=
  match checked_add_i64 current_time extension_secs with
  | none => none
  | some new_timer =>
  match checked_add_i64 round_start max_timer_secs with
  | none => none
  | some max_timer => some (min (max new_timer current_timer_end) max_timer)

/-- `math.rs::validate_bps_sum`: the three pot-split rates must sum to
exactly 10_000 basis points. -/
def validate_bps_sum (winner_bps dividend_bps next_round_bps : Nat) : Bool :=
  winner_bps + dividend_bps + next_round_bps ≤ U64_MAX &&
  winner_bps + dividend_bps + next_round_bps = 10000

/-- `errors.rs::FomoltError` (the variants reachable from the modelled
handlers), plus `HasOneViolation` standing for Anchor's `ConstraintHasOne`
account-validation error raised before a handler body runs. -/
inductive FomoltError where
  | GameNotActive
  | GameStillActive
  | NothingToClaim
  | CannotReferSelf
  | ReferrerMismatch
  | ReferrerNotRegistered
  | NoReferralEarnings
  | Unauthorized
  | Overflow
  | MustClaimPreviousRound
  | PlayerNotInRound
  | InsufficientFunds
  | HasOneViolation
deriving DecidableEq, Repr

/-- `state/game_state.rs::GameState` — one round's ledger plus its config
snapshot.  Pubkeys are `Nat` (0 = `Pubkey::default()`); the PDA bump is
omitted. -/
structure GameState where
  round : Nat
  pot_lamports : Nat
  timer_end : Int
  last_buyer : Nat
  total_keys : Nat
  round_start : Int
  active : Bool
  winner_claimed : Bool
  total_players : Nat
  total_dividend_pool : Nat
  next_round_pot : Nat
  winner_pot : Nat
  base_price_lamports : Nat
  price_increment_lamports : Nat
  timer_extension_secs : Int
  max_timer_secs : Int
  winner_bps : Nat
  dividend_bps : Nat
  next_round_bps : Nat
  protocol_fee_bps : Nat
  referral_bonus_bps : Nat
  protocol_wallet : Nat
deriving DecidableEq, Repr

/-- `state/player_state.rs::PlayerState`; the PDA bump is omitted. -/
structure PlayerState where
  player : Nat
  keys : Nat
  current_round : Nat
  claimed_dividends_lamports : Nat
  referrer : Option Nat
  referral_earnings_lamports : Nat
  claimed_referral_earnings_lamports : Nat
  is_agent : Bool
deriving DecidableEq, Repr

/-- `state/global_config.rs::GlobalConfig`; the PDA bump is omitted. -/
structure GlobalConfig where
  admin : Nat
  base_price_lamports : Nat
  price_increment_lamports : Nat
  timer_extension_secs : Int
  max_timer_secs : Int
  winner_bps : Nat
  dividend_bps : Nat
  next_round_bps : Nat
  protocol_fee_bps : Nat
  referral_bonus_bps : Nat
  protocol_wallet : Nat
deriving DecidableEq, Repr

/-- A freshly `init_if_needed`-allocated `PlayerState` account: all fields
zeroed, as Anchor zero-initializes new account data. -/
def emptyPlayer : PlayerState :=
  { player := 0, keys := 0, current_round := 0, claimed_dividends_lamports := 0,
    referrer := none, referral_earnings_lamports := 0,
    claimed_referral_earnings_lamports := 0, is_agent := false }

/-- Outcome of `handle_buy_keys`: the updated accounts together with the
lamport transfers the handler performed.  `cost`, `referral_bonus_paid` and
`pot_contribution` mirror the handler's local variables (also surfaced in
its `KeysPurchased` event); they are 0 on the two non-purchasing paths
(`purchased = false`). -/
structure BuyResult where
  game : GameState
  player : PlayerState
  referrer : Option PlayerState
  fee_transfer : Nat
  vault_transfer : Nat
  cost : Nat
  purchased : Bool
  referral_bonus_paid : Nat
  pot_contribution : Nat
deriving DecidableEq, Repr

/-- `buy_keys.rs` lines 80-144: player registration / round entry.
Returns the updated game (player counter) and player record.  The PDA
re-derivation check on a supplied referrer record holds for every genuine
record (each `PlayerState` lives at the PDA derived from its own `player`
field), so only the self-referral check can fail here. -/
def handle_registration (game : GameState) (player : PlayerState)
    (referrer_state : Option PlayerState) (buyer : Nat) :
    Except FomoltError (GameState × PlayerState) :=
  if player.player = 0 then
    -- First-time player initialization
    match (match referrer_state with
           | some rs =>
             if rs.player = buyer then Except.error FomoltError.CannotReferSelf
             else Except.ok (some rs.player)
           | none => Except.ok none : Except FomoltError (Option Nat)) with
    | Except.error e => Except.error e
    | Except.ok pref =>
      match checked_add_u32 game.total_players 1 with
      | none => Except.error FomoltError.Overflow
      | some tp =>
        Except.ok ({ game with total_players := tp },
          { player := buyer, keys := 0, current_round := game.round,
            claimed_dividends_lamports := 0, referrer := pref,
            referral_earnings_lamports := 0,
            claimed_referral_earnings_lamports := 0,
            is_agent := player.is_agent })
  else if player.current_round = 0 then
    -- Returning player (claimed from previous round); referrer preserved
    if player.player ≠ buyer then Except.error FomoltError.Unauthorized
    else
      match checked_add_u32 game.total_players 1 with
      | none => Except.error FomoltError.Overflow
      | some tp =>
        Except.ok ({ game with total_players := tp },
          { player with keys := 0, current_round := game.round })
  else if player.current_round = game.round then
    -- Already in this round
    if player.player ≠ buyer then Except.error FomoltError.Unauthorized
    else Except.ok (game, player)
  else
    -- In a different round — must claim first
    Except.error FomoltError.MustClaimPreviousRound

/-- `buy_keys.rs` lines 167-212: the referral step of the waterfall.
Returns the (possibly credited) referrer record, the referral bonus paid
and the resulting pot contribution. -/
def apply_referral (after_fee : Nat) (bound_referrer : Option Nat)
    (referrer_state : Option PlayerState) (referral_bonus_bps : Nat) :
    Except FomoltError (Option PlayerState × Nat × Nat) :=
  -- If the player has a referrer, the referrer_state account MUST be provided
  if bound_referrer.isSome ∧ referrer_state.isNone then
    Except.error FomoltError.ReferrerMismatch
  else
    match referrer_state, bound_referrer with
    | some rs, some er =>
      if rs.player ≠ er then Except.error FomoltError.ReferrerMismatch
      else
        match calculate_bps_split after_fee referral_bonus_bps with
        | none => Except.error FomoltError.Overflow
        | some referral_bonus =>
          if referral_bonus > 0 then
            match checked_add_u64 rs.referral_earnings_lamports referral_bonus with
            | none => Except.error FomoltError.Overflow
            | some earn =>
              match checked_sub after_fee referral_bonus with
              | none => Except.error FomoltError.Overflow
              | some potc =>
                Except.ok (some { rs with referral_earnings_lamports := earn },
                  referral_bonus, potc)
          else Except.ok (some rs, 0, after_fee)
    | _, _ => Except.ok (referrer_state, 0, after_fee)

/-- `buy_keys.rs` lines 151-339: the core purchase — cost, fee waterfall,
transfers, pool/key updates and timer extension.  `game`/`player` are the
records after registration; failures model `?`-propagated errors. -/
def execute_purchase (game : GameState) (player : PlayerState)
    (referrer_state : Option PlayerState) (buyer keys_to_buy : Nat) (now : Int) :
    Except FomoltError BuyResult :=
  match calculate_cost game.total_keys keys_to_buy
      game.base_price_lamports game.price_increment_lamports with
  | none => Except.error FomoltError.Overflow
  | some cost =>
  -- Step 1: house fee off the top
  match calculate_bps_split cost game.protocol_fee_bps with
  | none => Except.error FomoltError.Overflow
  | some house_fee =>
  match checked_sub cost house_fee with
  | none => Except.error FomoltError.Overflow
  | some after_fee =>
  -- Step 2: referral from remainder (if applicable)
  match apply_referral after_fee player.referrer referrer_state
      game.referral_bonus_bps with
  | Except.error e => Except.error e
  | Except.ok (referrer_state', referral_bonus_paid, pot_contribution) =>
  -- Transfers: house_fee buyer → protocol wallet; after_fee buyer → vault
  -- Step 3: pot splits from pot_contribution
  match calculate_bps_split pot_contribution game.winner_bps with
  | none => Except.error FomoltError.Overflow
  | some winner_amount =>
  match calculate_bps_split pot_contribution game.dividend_bps with
  | none => Except.error FomoltError.Overflow
  | some dividend_amount =>
  match calculate_bps_split pot_contribution game.next_round_bps with
  | none => Except.error FomoltError.Overflow
  | some next_round_amount =>
  match checked_add_u64 game.winner_pot winner_amount with
  | none => Except.error FomoltError.Overflow
  | some wp =>
  match checked_add_u64 game.total_dividend_pool dividend_amount with
  | none => Except.error FomoltError.Overflow
  | some dp =>
  match checked_add_u64 game.next_round_pot next_round_amount with
  | none => Except.error FomoltError.Overflow
  | some np =>
  match checked_add_u64 player.keys keys_to_buy with
  | none => Except.error FomoltError.Overflow
  | some pk =>
  match checked_add_u64 game.total_keys keys_to_buy with
  | none => Except.error FomoltError.Overflow
  | some tk =>
  match checked_add_u64 game.pot_lamports cost with
  | none => Except.error FomoltError.Overflow
  | some pot =>
  match calculate_timer_extension now game.timer_extension_secs game.timer_end
      game.round_start game.max_timer_secs with
  | none => Except.error FomoltError.Overflow
  | some te =>
    Except.ok
      { game :=
          { game with
            winner_pot := wp
            total_dividend_pool := dp
            next_round_pot := np
            total_keys := tk
            pot_lamports := pot
            last_buyer := buyer
            timer_end := te },
        player := { player with keys := pk },
        referrer := referrer_state',
        fee_transfer := house_fee, vault_transfer := after_fee,
        cost := cost, purchased := true,
        referral_bonus_paid := referral_bonus_paid,
        pot_contribution := pot_contribution }

/-- `buy_keys.rs::handle_buy_keys`: lazy expiry no-op, registration,
zero-quantity early return, then the purchase core. -/
def handle_buy_keys (game : GameState) (player : PlayerState)
    (referrer_state : Option PlayerState) (buyer keys_to_buy : Nat)
    (is_agent : Bool) (now : Int) : Except FomoltError BuyResult :=
  -- Auto-end check: if timer expired, end the round and return Ok (no-op)
  if game.timer_end ≤ now then
    Except.ok { game := { game with active := false }, player := player,
                referrer := referrer_state, fee_transfer := 0,
                vault_transfer := 0, cost := 0, purchased := false,
                referral_bonus_paid := 0, pot_contribution := 0 }
  else if ¬ game.active then Except.error FomoltError.GameNotActive
  else
    match handle_registration game player referrer_state buyer with
    | Except.error e => Except.error e
    | Except.ok (game1, player1) =>
      let player2 := { player1 with is_agent := is_agent }
      -- 0-key buy = registration only, skip core buy logic
      if keys_to_buy = 0 then
        Except.ok { game := game1, player := player2,
                    referrer := referrer_state, fee_transfer := 0,
                    vault_transfer := 0, cost := 0, purchased := false,
                    referral_bonus_paid := 0, pot_contribution := 0 }
      else execute_purchase game1 player2 referrer_state buyer keys_to_buy now

/-- Outcome of `handle_claim`: updated accounts plus the payout components
(the `total_payout` lamports move from the vault to the caller). -/
structure ClaimOutcome where
  game : GameState
  player : PlayerState
  dividend_payout : Nat
  winner_payout : Nat
  total_payout : Nat
deriving DecidableEq, Repr

/-- `claim.rs::handle_claim` together with the `Claim` account constraints:
`has_one = player` (the record belongs to the caller) and
`player_state.current_round == game_state.round @ PlayerNotInRound`,
then lazy expiry, dividend/winner computation, payout and the
double-claim reset. -/
def handle_claim (game : GameState) (player : PlayerState) (caller : Nat)
    (now : Int) (vault_lamports : Nat) : Except FomoltError ClaimOutcome :=
  if player.player ≠ caller then Except.error FomoltError.HasOneViolation
  else if player.current_round ≠ game.round then
    Except.error FomoltError.PlayerNotInRound
  else
    -- Auto-end check
    let game := if now ≥ game.timer_end ∧ game.active then
        { game with active := false } else game
    -- Dividends are only claimable after the round ends
    if game.active then Except.error FomoltError.GameStillActive
    else
      match calculate_dividend_share player.keys game.total_dividend_pool
          game.total_keys with
      | none => Except.error FomoltError.Overflow
      | some dividend_share =>
        let is_winner := caller = game.last_buyer ∧ ¬ game.winner_claimed
        let winner_payout := if is_winner then game.winner_pot else 0
        match checked_add_u64 dividend_share winner_payout with
        | none => Except.error FomoltError.Overflow
        | some total_payout =>
          if total_payout = 0 then Except.error FomoltError.NothingToClaim
          else if vault_lamports < total_payout then
            Except.error FomoltError.InsufficientFunds
          else
            match checked_add_u64 player.claimed_dividends_lamports
                dividend_share with
            | none => Except.error FomoltError.Overflow
            | some cd =>
              Except.ok
                { game :=
                    { game with
                      winner_claimed := if is_winner then true
                        else game.winner_claimed }
                  player :=
                    { player with
                      claimed_dividends_lamports := cd
                      keys := 0
                      current_round := 0 }
                  dividend_payout := dividend_share
                  winner_payout := winner_payout
                  total_payout := total_payout }

/-- `claim_referral_earnings.rs::handle_claim_referral_earnings` with its
`has_one = player` constraint: lazy expiry, then pay out the caller's whole
unclaimed referral balance from the vault.  Returns the updated game and
player records and the amount transferred. -/
def handle_claim_referral_earnings (game : GameState) (player : PlayerState)
    (caller : Nat) (now : Int) (vault_lamports : Nat) :
    Except FomoltError (GameState × PlayerState × Nat) :=
  if player.player ≠ caller then Except.error FomoltError.HasOneViolation
  else
    -- Auto-end check
    let game := if now ≥ game.timer_end ∧ game.active then
        { game with active := false } else game
    let amount := player.referral_earnings_lamports
    if amount = 0 then Except.error FomoltError.NoReferralEarnings
    else if vault_lamports < amount then
      Except.error FomoltError.InsufficientFunds
    else
      match checked_add_u64 player.claimed_referral_earnings_lamports amount with
      | none => Except.error FomoltError.Overflow
      | some cre =>
        Except.ok (game,
          { player with
            claimed_referral_earnings_lamports := cre
            referral_earnings_lamports := 0 },
          amount)

/-- Outcome of `handle_start_new_round`: the concluded predecessor, the
initialized successor and the carry-over amount moved between their
vaults. -/
structure StartRoundOutcome where
  prev_game : GameState
  new_game : GameState
  carry_over : Nat
deriving DecidableEq, Repr

/-- `start_new_round.rs::handle_start_new_round`: round-number guard, lazy
expiry, empty-round auto-winner-claim, carry-over computation and transfer,
and initialization of the successor round from the live `GlobalConfig`. -/
def handle_start_new_round (prev_game : GameState) (config : GlobalConfig)
    (prev_vault_lamports : Nat) (now : Int) :
    Except FomoltError StartRoundOutcome :=
  -- require!(prev_game.round < u64::MAX)
  if ¬ prev_game.round < U64_MAX then Except.error FomoltError.Overflow
  else
    -- Auto-end check
    let prev_game := if now ≥ prev_game.timer_end ∧ prev_game.active then
        { prev_game with active := false } else prev_game
    -- Previous round must be inactive
    if prev_game.active then Except.error FomoltError.GameStillActive
    else
      -- Mark empty rounds as concluded (no winner to claim)
      let prev_game := if prev_game.total_keys = 0 then
          { prev_game with winner_claimed := true } else prev_game
      -- Empty rounds forward the entire prev vault balance;
      -- normal rounds forward only next_round_pot
      let carry_over := if prev_game.total_keys = 0 then prev_vault_lamports
        else prev_game.next_round_pot
      if carry_over > 0 ∧ prev_vault_lamports < carry_over then
        Except.error FomoltError.InsufficientFunds
      else
        match checked_add_u64 prev_game.round 1 with
        | none => Except.error FomoltError.Overflow
        | some new_round =>
          match checked_add_i64 now config.max_timer_secs with
          | none => Except.error FomoltError.Overflow
          | some te =>
            Except.ok
              { prev_game := prev_game
                new_game :=
                  { round := new_round
                    pot_lamports := carry_over
                    timer_end := te
                    last_buyer := 0
                    total_keys := 0
                    round_start := now
                    active := true
                    winner_claimed := false
                    total_players := 0
                    total_dividend_pool := 0
                    next_round_pot := 0
                    winner_pot := carry_over
                    base_price_lamports := config.base_price_lamports
                    price_increment_lamports := config.price_increment_lamports
                    timer_extension_secs := config.timer_extension_secs
                    max_timer_secs := config.max_timer_secs
                    winner_bps := config.winner_bps
                    dividend_bps := config.dividend_bps
                    next_round_bps := config.next_round_bps
                    protocol_fee_bps := config.protocol_fee_bps
                    referral_bonus_bps := config.referral_bonus_bps
                    protocol_wallet := config.protocol_wallet }
                carry_over := carry_over }

/-- One operation against a round, as submitted by the environment. -/
inductive Op where
  | buy (buyer : Nat) (keys_to_buy : Nat) (referrer : Option Nat)
      (is_agent : Bool) (now : Int)
  | claim (caller : Nat) (now : Int)
  | claimReferral (caller : Nat) (now : Int)
deriving DecidableEq, Repr

/-- The observable state one round's operations act on: the round ledger,
the player records (an association list keyed by identity; absent key =
uninitialized account), the vault balance, and running totals of protocol
fees transferred out, amounts paid out by claims, and gross purchase costs
paid in. -/
structure Ledger where
  game : GameState
  players : List (Nat × PlayerState)
  vault : Nat
  fees : Nat
  claimed : Nat
  costs : Nat
deriving DecidableEq, Repr

/-- Initial ledger for a freshly initialized round: no player records, an
empty vault, and zeroed running totals. -/
def initLedger (g : GameState) : Ledger :=
  { game := g, players := [], vault := 0, fees := 0, claimed := 0, costs := 0 }

/-- Execute one operation atomically against the ledger; `none` models a
failed (hence fully aborted) transaction, including Anchor's rejection of
an uninitialized account passed where a `PlayerState` is expected. -/
def step (L : Ledger) : Op → Option Ledger
  | Op.buy buyer keys_to_buy referrer is_agent now =>
    -- init_if_needed: a missing buyer record starts out zeroed
    let pl := (L.players.lookup buyer).getD emptyPlayer
    match (match referrer with
           | none => some none
           | some r =>
             match L.players.lookup r with
             | some rs => some (some rs)
             | none => none : Option (Option PlayerState)) with
    | none => none
    | some rso =>
      match handle_buy_keys L.game pl rso buyer keys_to_buy is_agent now with
      | Except.error _ => none
      | Except.ok out =>
        let players1 := (buyer, out.player) :: L.players
        let players2 :=
          match referrer, out.referrer with
          | some r, some rs' => (r, rs') :: players1
          | _, _ => players1
        some { game := out.game, players := players2,
               vault := L.vault + out.vault_transfer,
               fees := L.fees + out.fee_transfer,
               claimed := L.claimed, costs := L.costs + out.cost }
  | Op.claim caller now =>
    match L.players.lookup caller with
    | none => none
    | some pl =>
      match handle_claim L.game pl caller now L.vault with
      | Except.error _ => none
      | Except.ok out =>
        some { game := out.game, players := (caller, out.player) :: L.players,
               vault := L.vault - out.total_payout,
               fees := L.fees, claimed := L.claimed + out.total_payout,
               costs := L.costs }
  | Op.claimReferral caller now =>
    match L.players.lookup caller with
    | none => none
    | some pl =>
      match handle_claim_referral_earnings L.game pl caller now L.vault with
      | Except.error _ => none
      | Except.ok (game', pl', amount) =>
        some { game := game', players := (caller, pl') :: L.players,
               vault := L.vault - amount,
               fees := L.fees, claimed := L.claimed + amount,
               costs := L.costs }

/-- Run a sequence of operations, requiring every one to succeed. -/
def run (L : Ledger) : List Op → Option Ledger
  | [] => some L
  | op :: ops =>
    match step L op with
    | none => none
    | some L' => run L' ops

/-- Sequentially process dividend/winner claims for a list of player
records against one round, threading the game state and vault balance and
collecting each claim's dividend payout. -/
def run_claims (game : GameState) (vault : Nat) (now : Int) :
    List PlayerState → Option (GameState × Nat × List Nat)
  | [] => some (game, vault, [])
  | p :: ps =>
    match handle_claim game p p.player now vault with
    | Except.error _ => none
    | Except.ok out =>
      match run_claims out.game (vault - out.total_payout) now ps with
      | none => none
      | some (g', v', divs) => some (g', v', out.dividend_payout :: divs)

/-- The timer evolution across a sequence of purchases at the given times:
each purchase updates the recorded deadline through
`calculate_timer_extension` exactly as `buy_keys.rs` line 284 does. -/
def timer_fold (round_start max_timer ext : Int) (cur : Int) :
    List Int → Option Int
  | [] => some cur
  | t :: ts =>
    match calculate_timer_extension t ext cur round_start max_timer with
    | none => none
    | some cur' => timer_fold round_start max_timer ext cur' ts

/-! ## Concrete fixtures used by witnesses -/

/-- A concrete ended round used by witnesses: two keys sold, 100-lamport
dividend pool. -/
def gEnded : GameState :=
  { round := 1, pot_lamports := 200, timer_end := 1000, last_buyer := 9,
    total_keys := 2, round_start := 0, active := false,
    winner_claimed := true, total_players := 2, total_dividend_pool := 100,
    next_round_pot := 0, winner_pot := 0, base_price_lamports := 100,
    price_increment_lamports := 10, timer_extension_secs := 30,
    max_timer_secs := 1000, winner_bps := 4800, dividend_bps := 4500,
    next_round_bps := 700, protocol_fee_bps := 200,
    referral_bonus_bps := 1000, protocol_wallet := 99 }

/-- A concrete live round used by witnesses: fresh round 1. -/
def gActive : GameState :=
  { gEnded with
    active := true
    winner_claimed := false
    total_keys := 0
    total_players := 0
    total_dividend_pool := 0
    pot_lamports := 0
    last_buyer := 0 }

/-- Witness fixture: a one-key holder of round 1. -/
def pHolder (who : Nat) : PlayerState :=
  { emptyPlayer with player := who, keys := 1, current_round := 1 }

/-- Witness fixture: the outcome of player 1's claim against `gEnded`. -/
def coOut : ClaimOutcome :=
  { game := gEnded,
    player := { emptyPlayer with player := 1, claimed_dividends_lamports := 50 },
    dividend_payout := 50, winner_payout := 0, total_payout := 50 }

/-- Witness fixture: a live configuration distinct from the round
snapshots, to make re-snapshotting observable. -/
def cfgW : GlobalConfig :=
  { admin := 42, base_price_lamports := 200, price_increment_lamports := 20,
    timer_extension_secs := 60, max_timer_secs := 2000, winner_bps := 5000,
    dividend_bps := 4000, next_round_bps := 1000, protocol_fee_bps := 300,
    referral_bonus_bps := 500, protocol_wallet := 77 }

/-- Witness fixture: an ended predecessor round with zero keys sold. -/
def gEndedEmpty : GameState :=
  { gEnded with
    total_keys := 0
    winner_claimed := false }

/-- Witness fixture: the transition outcome for `gEndedEmpty` with a
500-lamport vault at time 3000 under `cfgW`. -/
def sroOut : StartRoundOutcome :=
  { prev_game := { gEndedEmpty with winner_claimed := true },
    new_game :=
      { round := 2
        pot_lamports := 500
        timer_end := 5000
        last_buyer := 0
        total_keys := 0
        round_start := 3000
        active := true
        winner_claimed := false
        total_players := 0
        total_dividend_pool := 0
        next_round_pot := 0
        winner_pot := 500
        base_price_lamports := 200
        price_increment_lamports := 20
        timer_extension_secs := 60
        max_timer_secs := 2000
        winner_bps := 5000
        dividend_bps := 4000
        next_round_bps := 1000
        protocol_fee_bps := 300
        referral_bonus_bps := 500
        protocol_wallet := 77 },
    carry_over := 500 }

/-- Witness fixture: the ledger after one 1-key purchase by player 5 and
their post-expiry claim, run from a fresh `gActive` round. -/
def LW : Ledger :=
  { game :=
      { gActive with
        active := false
        winner_claimed := true
        total_players := 1
        total_dividend_pool := 44
        next_round_pot := 6
        winner_pot := 47
        pot_lamports := 100
        total_keys := 1
        last_buyer := 5 },
    players :=
      [(5, { emptyPlayer with player := 5, claimed_dividends_lamports := 44 }),
       (5, { emptyPlayer with player := 5, keys := 1, current_round := 1 })],
    vault := 7, fees := 2, claimed := 91, costs := 100 }

/-- Witness fixture: the outcome of player 5's 2-key purchase against
`gActive` with player 7's (unbound) record supplied. -/
def buyOutW : BuyResult :=
  { game :=
      { gActive with
        pot_lamports := 210
        last_buyer := 5
        total_keys := 2
        total_dividend_pool := 92
        next_round_pot := 14
        winner_pot := 98 },
    player := { emptyPlayer with player := 5, keys := 3, current_round := 1 },
    referrer := some (pHolder 7), fee_transfer := 4, vault_transfer := 206,
    cost := 210, purchased := true, referral_bonus_paid := 0,
    pot_contribution := 206 }

/-- Witness fixture: a round-1 member whose referrer is bound to player 7. -/
def pReferred : PlayerState :=
  { emptyPlayer with player := 5, current_round := 1, referrer := some 7 }

/-- Witness fixture: the same bound-referrer buyer after settling
(round-membership sentinel 0). -/
def pReferredSettled : PlayerState :=
  { pReferred with current_round := 0 }

/-- Witness fixture: the outcome of the bound buyer's 1-key purchase with
the matching referrer record supplied. -/
def buyBoundW : BuyResult :=
  { game :=
      { gActive with
        pot_lamports := 100
        last_buyer := 5
        total_keys := 1
        total_dividend_pool := 40
        next_round_pot := 6
        winner_pot := 42 },
    player := { pReferred with keys := 1 },
    referrer := some { pHolder 7 with referral_earnings_lamports := 9 },
    fee_transfer := 2, vault_transfer := 98, cost := 100, purchased := true,
    referral_bonus_paid := 9, pot_contribution := 89 }

-- Sanity examples mirroring the unit tests in `math.rs`.
example : calculate_cost 0 1 10000000 1000000 = some 10000000 := by decide
example : calculate_cost 1 1 10000000 1000000 = some 11000000 := by decide
example : calculate_cost 0 10 10000000 1000000 = some 145000000 := by decide
example : calculate_cost 100 5 10000000 1000000 = some 560000000 := by decide
example : calculate_cost 0 0 10000000 1000000 = none := by decide
example : calculate_bps_split 1000000000 4800 = some 480000000 := by decide
example : calculate_bps_split 99 4800 = some 47 := by decide
example : calculate_dividend_share 1 100 3 = some 33 := by decide
example : calculate_timer_extension 500 30 1000 0 86400 = some 1000 := by decide
example : calculate_timer_extension 86390 30 86400 0 86400 = some 86400 := by decide

/-! ## Success characterizations of the checked primitives -/

theorem checked_mul_u128_some {a b v : Nat} :
    checked_mul_u128 a b = some v ↔ a * b ≤ U128_MAX ∧ v = a * b := by
  unfold checked_mul_u128; split_ifs <;> simp_all [eq_comm]

theorem checked_add_u128_some {a b v : Nat} :
    checked_add_u128 a b = some v ↔ a + b ≤ U128_MAX ∧ v = a + b := by
  unfold checked_add_u128; split_ifs <;> simp_all [eq_comm]

theorem checked_sub_some {a b v : Nat} :
    checked_sub a b = some v ↔ b ≤ a ∧ v = a - b := by
  unfold checked_sub; split_ifs <;> simp_all [eq_comm]

theorem checked_div_u128_some {a b v : Nat} :
    checked_div_u128 a b = some v ↔ b ≠ 0 ∧ v = a / b := by
  unfold checked_div_u128; split_ifs <;> simp_all [eq_comm]

theorem checked_add_u64_some {a b v : Nat} :
    checked_add_u64 a b = some v ↔ a + b ≤ U64_MAX ∧ v = a + b := by
  unfold checked_add_u64; split_ifs <;> simp_all [eq_comm]

theorem checked_add_u32_some {a b v : Nat} :
    checked_add_u32 a b = some v ↔ a + b ≤ U32_MAX ∧ v = a + b := by
  unfold checked_add_u32; split_ifs <;> simp_all [eq_comm]

theorem checked_add_i64_some {a b : Int} {v : Int} :
    checked_add_i64 a b = some v ↔
      I64_MIN ≤ a + b ∧ a + b ≤ I64_MAX ∧ v = a + b := by
  unfold checked_add_i64; split_ifs <;> simp_all [eq_comm]

theorem u64_try_from_some {a v : Nat} :
    u64_try_from a = some v ↔ a ≤ U64_MAX ∧ v = a := by
  unfold u64_try_from; split_ifs <;> simp_all [eq_comm]

/-! ## Closed forms of the math functions on success -/

theorem calculate_cost_eq {k n bp inc c : Nat}
    (h : calculate_cost k n bp inc = some c) :
    c = n * bp + inc * (n * (k * 2 + n - 1)) / 2 ∧ 1 ≤ k * 2 + n := by
  unfold calculate_cost at h
  repeat' split at h
  all_goals simp_all [checked_mul_u128_some, checked_add_u128_some,
    checked_sub_some, checked_div_u128_some, u64_try_from_some]

theorem calculate_bps_split_eq {a b q : Nat}
    (h : calculate_bps_split a b = some q) : q = a * b / 10000 := by
  unfold calculate_bps_split at h
  repeat' split at h
  all_goals simp_all [checked_mul_u128_some, checked_div_u128_some,
    u64_try_from_some]

theorem calculate_dividend_share_eq {pk pool tk d : Nat}
    (h : calculate_dividend_share pk pool tk = some d) :
    d = pk * pool / tk := by
  unfold calculate_dividend_share at h
  split at h
  · simp only [Option.some.injEq] at h
    subst h
    rename_i hz
    rcases hz with rfl | rfl <;> simp
  · repeat' split at h
    all_goals simp_all [checked_mul_u128_some, checked_div_u128_some,
      u64_try_from_some]

theorem calculate_timer_extension_eq {t e cur rs mx new : Int}
    (h : calculate_timer_extension t e cur rs mx = some new) :
    new = min (max (t + e) cur) (rs + mx) := by
  unfold calculate_timer_extension at h
  repeat' split at h
  all_goals simp_all [checked_add_i64_some]

/-! ## Pricing-curve additivity (C3 support) -/

/-- The series numerator `n * (2k + n - 1)` is always even. -/
theorem cost_series_even (n k : Nat) : 2 ∣ n * (k * 2 + n - 1) := by
  rcases Nat.even_or_odd n with ⟨m, rfl⟩ | ⟨m, rfl⟩
  · exact ⟨m * (k * 2 + (m + m) - 1), by ring⟩
  · refine ⟨(2 * m + 1) * (k + m), ?_⟩
    have hd : k * 2 + (2 * m + 1) - 1 = 2 * (k + m) := by omega
    rw [hd]; ring

/-- Halves of even numbers add exactly. -/
theorem div2_add {x y : Nat} (hx : 2 ∣ x) (hy : 2 ∣ y) :
    x / 2 + y / 2 = (x + y) / 2 := by
  obtain ⟨x', rfl⟩ := hx
  obtain ⟨y', rfl⟩ := hy
  omega

/-- C3: Additivity of the pricing function — for every supply `k`, price
parameters and positive quantities `a`, `b`, whenever all three cost
computations succeed, buying `a + b` keys in one batch costs exactly the
sum of buying `a` keys and then `b` keys. -/
theorem calculate_cost_additive (k a b bp inc c c1 c2 : Nat)
    (ha : 0 < a) (hb : 0 < b)
    (h : calculate_cost k (a + b) bp inc = some c)
    (h1 : calculate_cost k a bp inc = some c1)
    (h2 : calculate_cost (k + a) b bp inc = some c2) :
    c = c1 + c2 := by
  obtain ⟨hc, -⟩ := calculate_cost_eq h
  obtain ⟨hc1, -⟩ := calculate_cost_eq h1
  obtain ⟨hc2, -⟩ := calculate_cost_eq h2
  subst hc hc1 hc2
  obtain ⟨a', rfl⟩ : ∃ a', a = a' + 1 := ⟨a - 1, by omega⟩
  obtain ⟨b', rfl⟩ : ∃ b', b = b' + 1 := ⟨b - 1, by omega⟩
  have hsplit :
      inc * ((a' + 1) * (k * 2 + (a' + 1) - 1)) / 2 +
        inc * ((b' + 1) * ((k + (a' + 1)) * 2 + (b' + 1) - 1)) / 2 =
      inc * ((a' + 1 + (b' + 1)) * (k * 2 + (a' + 1 + (b' + 1)) - 1)) / 2 := by
    rw [div2_add (Dvd.dvd.mul_left (cost_series_even (a' + 1) k) inc)
      (Dvd.dvd.mul_left (cost_series_even (b' + 1) (k + (a' + 1))) inc)]
    congr 1
    rw [← Nat.mul_add]
    congr 1
    have e1 : k * 2 + (a' + 1) - 1 = k * 2 + a' := by omega
    have e2 : (k + (a' + 1)) * 2 + (b' + 1) - 1 = k * 2 + 2 * a' + b' + 2 := by
      omega
    have e3 : k * 2 + (a' + 1 + (b' + 1)) - 1 = k * 2 + a' + b' + 1 := by omega
    rw [e1, e2, e3]
    ring
  have hbp : (a' + 1 + (b' + 1)) * bp = (a' + 1) * bp + (b' + 1) * bp := by
    ring
  omega

/-- C3 witness: buying 5 keys from supply 10 costs the same as buying 2
then 3. -/
theorem calculate_cost_additive_witness :
    calculate_cost 10 5 10000000 1000000 = some 110000000 ∧
    calculate_cost 10 2 10000000 1000000 = some 41000000 ∧
    calculate_cost 12 3 10000000 1000000 = some 69000000 ∧
    (110000000 : Nat) = 41000000 + 69000000 :=
  ⟨by decide, by decide, by decide,
    calculate_cost_additive 10 2 3 10000000 1000000 110000000 41000000
      69000000 (by decide) (by decide) (by decide) (by decide) (by decide)⟩

/-- C5 counterexample: with a positive current supply, `calculate_cost`
at quantity 0 does NOT return an error — it returns a cost of 0 (the
claimed "error for every current_supply" fails at supply 1). -/
theorem calculate_cost_zero_qty_cex :
    calculate_cost 1 0 10000000 1000000 = some 0 := by decide

/-- C5 amended: a zero-quantity call underflows (errors) exactly when the
current supply is also zero; for every positive supply (within the u64
domain) it instead returns a cost of 0.  Callers must still special-case
zero-quantity purchases, which `handle_buy_keys` does before reaching the
cost computation. -/
theorem calculate_cost_zero_qty_amended (k bp inc : Nat) (hk64 : k ≤ U64_MAX) :
    (calculate_cost 0 0 bp inc = none) ∧
    (0 < k → calculate_cost k 0 bp inc = some 0) := by
  constructor
  · unfold calculate_cost
    simp [checked_mul_u128, checked_add_u128, checked_sub, U128_MAX]
  · intro hk
    unfold calculate_cost
    have h2 : k * 2 ≤ 340282366920938463463374607431768211455 := by
      unfold U64_MAX at hk64
      omega
    have h3 : 1 ≤ k * 2 := by omega
    simp [checked_mul_u128, checked_add_u128, checked_sub, checked_div_u128,
      u64_try_from, h2, h3, U128_MAX, U64_MAX]

/-- C5 amended witness: supply 0 errors, supply 3 yields cost 0. -/
theorem calculate_cost_zero_qty_amended_witness :
    calculate_cost 0 0 5 7 = none ∧ calculate_cost 3 0 5 7 = some 0 :=
  ⟨(calculate_cost_zero_qty_amended 0 5 7 (by decide)).1,
   (calculate_cost_zero_qty_amended 3 5 7 (by decide)).2 (by decide)⟩

/-- Registration never touches the timer fields. -/
theorem handle_registration_timer {g : GameState} {p : PlayerState}
    {rso : Option PlayerState} {buyer : Nat} {g1 : GameState}
    {p1 : PlayerState}
    (h : handle_registration g p rso buyer = Except.ok (g1, p1)) :
    g1.timer_end = g.timer_end ∧ g1.round_start = g.round_start ∧
    g1.timer_extension_secs = g.timer_extension_secs ∧
    g1.max_timer_secs = g.max_timer_secs := by
  unfold handle_registration at h
  repeat' split at h
  all_goals try exact Except.noConfusion h
  all_goals
    simp only [Except.ok.injEq, Prod.mk.injEq] at h
    obtain ⟨h1, h2⟩ := h
    subst h1
    simp

/-- The purchase core sets the deadline exactly by the timer formula. -/
theorem execute_purchase_timer {g : GameState} {p : PlayerState}
    {rso : Option PlayerState} {buyer qty : Nat} {now : Int} {out : BuyResult}
    (h : execute_purchase g p rso buyer qty now = Except.ok out) :
    out.game.timer_end =
      min (max (now + g.timer_extension_secs) g.timer_end)
        (g.round_start + g.max_timer_secs) := by
  simp only [execute_purchase] at h
  repeat' split at h
  all_goals try exact Except.noConfusion h
  all_goals
    simp only [Except.ok.injEq] at h
    subst h
    exact calculate_timer_extension_eq (by assumption)

/-- Every successful purchase that actually executes (non-no-op,
non-registration-only) records as new deadline exactly
`max(now + extension, old deadline)` clamped to
`round_start + max_timer_secs` of the round it acted on. -/
theorem handle_buy_keys_timer {g : GameState} {p : PlayerState}
    {rso : Option PlayerState} {buyer qty : Nat} {ag : Bool} {now : Int}
    {out : BuyResult}
    (h : handle_buy_keys g p rso buyer qty ag now = Except.ok out)
    (hp : out.purchased = true) :
    out.game.timer_end =
      min (max (now + g.timer_extension_secs) g.timer_end)
        (g.round_start + g.max_timer_secs) := by
  simp only [handle_buy_keys] at h
  repeat' split at h
  all_goals try exact Except.noConfusion h
  · simp only [Except.ok.injEq] at h; subst h; exact absurd hp (by simp)
  · simp only [Except.ok.injEq] at h; subst h; exact absurd hp (by simp)
  · rename_i gp g1 p1
    obtain ⟨ht, hrs, hte, hmx⟩ := handle_registration_timer (by assumption)
    have := execute_purchase_timer h
    rw [ht, hrs, hte, hmx] at this
    exact this

/-- A single timer step is monotone and capped, provided the current
deadline respects the cap. -/
theorem timer_step_bounds {t e cur rs mx new : Int} (hcap : cur ≤ rs + mx)
    (h : calculate_timer_extension t e cur rs mx = some new) :
    cur ≤ new ∧ new ≤ rs + mx := by
  have hnew := calculate_timer_extension_eq h
  subst hnew
  omega

/-- The fold of timer steps stays between the starting deadline and the
cap whenever the start respects the cap. -/
theorem timer_fold_bounds {rs mx ext : Int} (cur : Int) (ts : List Int)
    {d : Int} (hcap : cur ≤ rs + mx)
    (h : timer_fold rs mx ext cur ts = some d) :
    cur ≤ d ∧ d ≤ rs + mx := by
  induction ts generalizing cur with
  | nil =>
    unfold timer_fold at h
    simp only [Option.some.injEq] at h
    omega
  | cons t ts ih =>
    unfold timer_fold at h
    split at h
    · exact Option.noConfusion h
    · rename_i cur' hstep
      obtain ⟨h1, h2⟩ := timer_step_bounds hcap hstep
      obtain ⟨h3, h4⟩ := ih cur' h2 h
      exact ⟨le_trans h1 h3, h4⟩

/-- C6: Timer monotonicity and cap — each successful purchase updates the
deadline to `max(current_time + extension, current_deadline)` clamped to
`round_start + max_timer_duration`, so a single step never decreases the
deadline and never exceeds the cap, and across any sequence of purchases
starting from the initial deadline `round_start + max_timer_duration` the
recorded deadline stays at most the cap and never decreases. -/
theorem timer_monotone_capped (rs mx ext cur t new : Int) (ts : List Int)
    (d : Int) (hcap : cur ≤ rs + mx)
    (hstep : calculate_timer_extension t ext cur rs mx = some new)
    (hfold : timer_fold rs mx ext (rs + mx) ts = some d) :
    new = min (max (t + ext) cur) (rs + mx) ∧
    cur ≤ new ∧ new ≤ rs + mx ∧
    rs + mx ≤ d ∧ d ≤ rs + mx ∧
    (∀ (g : GameState) (p : PlayerState) (rso : Option PlayerState)
      (buyer qty : Nat) (ag : Bool) (now : Int) (out : BuyResult),
      handle_buy_keys g p rso buyer qty ag now = Except.ok out →
      out.purchased = true →
      out.game.timer_end =
        min (max (now + g.timer_extension_secs) g.timer_end)
          (g.round_start + g.max_timer_secs)) := by
  obtain ⟨h1, h2⟩ := timer_step_bounds hcap hstep
  obtain ⟨h3, h4⟩ := timer_fold_bounds (rs + mx) ts le_rfl hfold
  exact ⟨calculate_timer_extension_eq hstep, h1, h2, h3, h4,
    fun g p rso buyer qty ag now out hout hp =>
      handle_buy_keys_timer hout hp⟩

/-- C6 witness: a concrete step and a concrete two-purchase sequence. -/
theorem timer_monotone_capped_witness :
    (1000 : Int) ≤ 0 + 86400 ∧
    calculate_timer_extension 980 30 1000 0 86400 = some 1010 ∧
    timer_fold 0 86400 30 (0 + 86400) [100, 200] = some 86400 ∧
    ((1010 : Int) = min (max (980 + 30) 1000) (0 + 86400) ∧
      (1000 : Int) ≤ 1010 ∧ (1010 : Int) ≤ 0 + 86400 ∧
      (0 : Int) + 86400 ≤ 86400 ∧ (86400 : Int) ≤ 0 + 86400) ∧
    (handle_buy_keys gActive (pHolder 5) (some (pHolder 7)) 5 2 false 0 =
        Except.ok buyOutW ∧
      buyOutW.purchased = true ∧
      buyOutW.game.timer_end =
        min (max ((0 : Int) + gActive.timer_extension_secs) gActive.timer_end)
          (gActive.round_start + gActive.max_timer_secs)) :=
  have h := timer_monotone_capped 0 86400 30 1000 980 1010 [100, 200] 86400
    (by decide) (by decide) (by decide)
  ⟨by decide, by decide, by decide,
    ⟨h.1, h.2.1, h.2.2.1, h.2.2.2.1, h.2.2.2.2.1⟩,
    by rfl, by decide,
    h.2.2.2.2.2 gActive (pHolder 5) (some (pHolder 7)) 5 2 false 0 buyOutW
      (by rfl) (by decide)⟩

/-! ## Claim handler characterization -/

/-- Everything a successful claim does: the dividend payout is the
floor-proportional share of the recorded pool, the total payout fits in
the vault, the caller's record is reset (keys 0, membership sentinel 0),
and the round's dividend pool and total keys are NOT decremented. -/
theorem handle_claim_ok {g : GameState} {p : PlayerState} {c : Nat} {now : Int}
    {v : Nat} {out : ClaimOutcome} (h : handle_claim g p c now v = Except.ok out) :
    p.player = c ∧ p.current_round = g.round ∧
    out.dividend_payout = p.keys * g.total_dividend_pool / g.total_keys ∧
    out.total_payout = out.dividend_payout + out.winner_payout ∧
    out.total_payout ≤ v ∧
    out.player.player = p.player ∧ out.player.keys = 0 ∧
    out.player.current_round = 0 ∧
    out.game.round = g.round ∧
    out.game.total_dividend_pool = g.total_dividend_pool ∧
    out.game.total_keys = g.total_keys := by
  simp only [handle_claim] at h
  repeat' split at h
  all_goals try exact Except.noConfusion h
  all_goals
    simp only [Except.ok.injEq] at h
    subst h
    have hd := calculate_dividend_share_eq
      (show calculate_dividend_share p.keys g.total_dividend_pool g.total_keys
        = some _ from by assumption)
    simp_all [checked_add_u64_some]

/-- A claim by the record's own player against a round the record is not a
member of fails with the round-membership error. -/
theorem handle_claim_not_in_round {g : GameState} {p : PlayerState} {c : Nat}
    (now : Int) (v : Nat) (hpc : p.player = c) (hcr : p.current_round ≠ g.round) :
    handle_claim g p c now v = Except.error FomoltError.PlayerNotInRound := by
  simp [handle_claim, hpc, hcr]

/-- Sequentially claiming never touches the dividend pool or total keys,
and every payout in the collected list is the floor-proportional share of
the ORIGINAL round totals, independent of position in the sequence. -/
theorem run_claims_eq {now : Int} :
    ∀ (ps : List PlayerState) (g : GameState) (vault : Nat)
    {g' : GameState} {v' : Nat} {divs : List Nat},
    run_claims g vault now ps = some (g', v', divs) →
    g'.total_dividend_pool = g.total_dividend_pool ∧
    g'.total_keys = g.total_keys ∧
    divs = ps.map (fun p => p.keys * g.total_dividend_pool / g.total_keys) := by
  intro ps
  induction ps with
  | nil =>
    intro g vault g' v' divs h
    unfold run_claims at h
    simp only [Option.some.injEq, Prod.mk.injEq] at h
    obtain ⟨h1, h2, h3⟩ := h
    subst h1 h2 h3
    simp
  | cons p ps ih =>
    intro g vault g' v' divs h
    unfold run_claims at h
    split at h
    · exact Option.noConfusion h
    · rename_i out hout
      split at h
      · exact Option.noConfusion h
      · rename_i g2 v2 divs2 hrest
        simp only [Option.some.injEq, Prod.mk.injEq] at h
        obtain ⟨h1, h2, h3⟩ := h
        subst h1 h2 h3
        obtain ⟨-, -, hdp, -, -, -, -, -, -, hpool, hkeys⟩ := handle_claim_ok hout
        obtain ⟨hp', hk', hd'⟩ := ih out.game (vault - out.total_payout) hrest
        refine ⟨by rw [hp', hpool], by rw [hk', hkeys], ?_⟩
        simp only [List.map_cons, hd', hdp, hpool, hkeys]

/-- C2: Claim-order independence of dividends — for a fixed ended round,
every participant's dividend payout is
`floor(holdings * total_dividend_pool / total_keys)` of the round's
recorded totals, claims never decrement the pool or the total keys, and
for any two permuted claim orders that both succeed the dividend-payout
lists are permutations of each other (same multiset and same total). -/
theorem dividend_claim_order_independent
    (g : GameState) (vault vault2 : Nat) (now now2 : Int)
    (ps ps2 : List PlayerState) (g1 g2 : GameState) (v1 v2 : Nat)
    (divs divs2 : List Nat)
    (hperm : ps.Perm ps2)
    (h1 : run_claims g vault now ps = some (g1, v1, divs))
    (h2 : run_claims g vault2 now2 ps2 = some (g2, v2, divs2)) :
    divs = ps.map (fun p => p.keys * g.total_dividend_pool / g.total_keys) ∧
    g1.total_dividend_pool = g.total_dividend_pool ∧
    g1.total_keys = g.total_keys ∧
    divs.Perm divs2 ∧ divs.sum = divs2.sum := by
  obtain ⟨hp1, hk1, hd1⟩ := run_claims_eq ps g vault h1
  obtain ⟨hp2, hk2, hd2⟩ := run_claims_eq ps2 g vault2 h2
  have hpermd : divs.Perm divs2 := by
    rw [hd1, hd2]
    exact hperm.map _
  exact ⟨hd1, hp1, hk1, hpermd, hpermd.sum_eq⟩

/-- C2 witness: two players with one key each against a 100-lamport pool
of an ended two-key round claim 50 each in either order. -/
theorem dividend_claim_order_independent_witness :
    run_claims gEnded 1000 2000 [pHolder 1, pHolder 2]
      = some (gEnded, 900, [50, 50]) ∧
    ([(50 : Nat), 50] =
      [pHolder 1, pHolder 2].map
        (fun p => p.keys * gEnded.total_dividend_pool / gEnded.total_keys)) ∧
    [(50 : Nat), 50].Perm [50, 50] := by
  have h := dividend_claim_order_independent gEnded 1000 1000 2000 2000
    [pHolder 1, pHolder 2] [pHolder 2, pHolder 1] gEnded gEnded 900 900
    [50, 50] [50, 50] (List.Perm.swap _ _ _) (by decide) (by decide)
  exact ⟨by decide, h.1, h.2.2.2.1⟩

/-- C9: Double-claim rejection — a successful claim unconditionally zeroes
the caller's key holdings and resets their round membership to the
sentinel 0, and a second claim by the same caller against the (unchanged)
round then fails with the round-membership error, whatever the time and
vault balance.  (Round numbers start at 1, so the live round is never 0.) -/
theorem double_claim_rejected (g : GameState) (p : PlayerState) (c : Nat)
    (now : Int) (v : Nat) (out : ClaimOutcome) (hr : g.round ≠ 0)
    (h : handle_claim g p c now v = Except.ok out) :
    out.player.keys = 0 ∧ out.player.current_round = 0 ∧
    ∀ (now2 : Int) (v2 : Nat),
      handle_claim out.game out.player c now2 v2 =
        Except.error FomoltError.PlayerNotInRound := by
  obtain ⟨hpc, -, -, -, -, hpp, hkeys, hcr0, hround, -, -⟩ := handle_claim_ok h
  refine ⟨hkeys, hcr0, fun now2 v2 => ?_⟩
  exact handle_claim_not_in_round now2 v2 (by rw [hpp, hpc])
    (by rw [hcr0, hround]; exact fun hc => hr hc.symm)

/-- C9 witness: player 1 claims 50 from the ended round, then a second
claim attempt fails with the round-membership error. -/
theorem double_claim_rejected_witness :
    (gEnded.round ≠ 0) ∧
    handle_claim gEnded (pHolder 1) 1 2000 1000 = Except.ok coOut ∧
    (coOut.player.keys = 0 ∧ coOut.player.current_round = 0 ∧
      ∀ (now2 : Int) (v2 : Nat),
        handle_claim coOut.game coOut.player 1 now2 v2 =
          Except.error FomoltError.PlayerNotInRound) := by
  refine ⟨by decide, by rfl, ?_⟩
  exact double_claim_rejected gEnded (pHolder 1) 1 2000 1000 coOut
    (by decide) (by rfl)

/-- C8: Expired-round purchase is a successful no-op that only corrects
state — whenever the current time has reached the round's deadline, any
purchase request (any quantity, any referrer argument) returns success
with the round's active flag cleared and NOTHING else changed: the player
record, the supplied referrer record, and every other round field are
returned untouched, no cost is computed and no lamports move. -/
theorem expired_buy_noop (g : GameState) (p : PlayerState)
    (rso : Option PlayerState) (buyer qty : Nat) (ag : Bool) (now : Int)
    (h : g.timer_end ≤ now) :
    handle_buy_keys g p rso buyer qty ag now =
      Except.ok { game := { g with active := false }, player := p,
                  referrer := rso, fee_transfer := 0, vault_transfer := 0,
                  cost := 0, purchased := false, referral_bonus_paid := 0,
                  pot_contribution := 0 } := by
  unfold handle_buy_keys
  rw [if_pos h]

/-- C8 witness: a purchase at time 2000 against a round whose deadline is
1000 succeeds and only flips the active flag. -/
theorem expired_buy_noop_witness :
    (gActive.timer_end ≤ 2000) ∧
    handle_buy_keys gActive (pHolder 1) none 1 5 false 2000 =
      Except.ok { game := { gActive with active := false },
                  player := pHolder 1, referrer := none, fee_transfer := 0,
                  vault_transfer := 0, cost := 0, purchased := false,
                  referral_bonus_paid := 0, pot_contribution := 0 } :=
  ⟨by decide, expired_buy_noop gActive (pHolder 1) none 1 5 false 2000
    (by decide)⟩

/-- C7: Empty-round transition — on success, an ended predecessor with
zero keys sold is auto-marked winner-claimed and forwards its ENTIRE
remaining vault balance, while a predecessor with keys forwards exactly
its carry-over pool; the successor is initialized with round number
predecessor + 1, pooled balance and winner pool both equal to the
carry-over, all other counters and pools zeroed, timer deadline
`now + max_timer_duration`, and every configuration field re-snapshotted
from the live configuration. -/
theorem start_new_round_spec (prev : GameState) (config : GlobalConfig)
    (pv : Nat) (now : Int) (out : StartRoundOutcome)
    (h : handle_start_new_round prev config pv now = Except.ok out) :
    (prev.total_keys = 0 →
      out.prev_game.winner_claimed = true ∧ out.carry_over = pv) ∧
    (prev.total_keys ≠ 0 →
      out.carry_over = prev.next_round_pot ∧
      out.prev_game.winner_claimed = prev.winner_claimed) ∧
    out.prev_game.active = false ∧
    out.new_game.round = prev.round + 1 ∧
    out.new_game.pot_lamports = out.carry_over ∧
    out.new_game.winner_pot = out.carry_over ∧
    out.new_game.total_keys = 0 ∧
    out.new_game.total_dividend_pool = 0 ∧
    out.new_game.next_round_pot = 0 ∧
    out.new_game.total_players = 0 ∧
    out.new_game.last_buyer = 0 ∧
    out.new_game.active = true ∧
    out.new_game.winner_claimed = false ∧
    out.new_game.timer_end = now + config.max_timer_secs ∧
    out.new_game.round_start = now ∧
    out.new_game.base_price_lamports = config.base_price_lamports ∧
    out.new_game.price_increment_lamports = config.price_increment_lamports ∧
    out.new_game.timer_extension_secs = config.timer_extension_secs ∧
    out.new_game.max_timer_secs = config.max_timer_secs ∧
    out.new_game.winner_bps = config.winner_bps ∧
    out.new_game.dividend_bps = config.dividend_bps ∧
    out.new_game.next_round_bps = config.next_round_bps ∧
    out.new_game.protocol_fee_bps = config.protocol_fee_bps ∧
    out.new_game.referral_bonus_bps = config.referral_bonus_bps ∧
    out.new_game.protocol_wallet = config.protocol_wallet := by
  simp only [handle_start_new_round] at h
  repeat' split at h
  all_goals try exact Except.noConfusion h
  all_goals
    simp only [Except.ok.injEq] at h
    subst h
    simp_all [checked_add_u64_some, checked_add_i64_some]

/-- C7 witness: transitioning the empty ended round forwards its whole
500-lamport vault, marks it winner-claimed and seeds round 2 from the
live configuration. -/
theorem start_new_round_spec_witness :
    handle_start_new_round gEndedEmpty cfgW 500 3000 = Except.ok sroOut ∧
    (sroOut.prev_game.winner_claimed = true ∧ sroOut.carry_over = 500) ∧
    sroOut.new_game.round = 2 ∧
    sroOut.new_game.pot_lamports = sroOut.carry_over ∧
    sroOut.new_game.winner_pot = sroOut.carry_over ∧
    sroOut.new_game.base_price_lamports = cfgW.base_price_lamports := by
  have h := start_new_round_spec gEndedEmpty cfgW 500 3000 sroOut (by rfl)
  exact ⟨by rfl, h.1 (by decide), h.2.2.2.1, h.2.2.2.2.1, h.2.2.2.2.2.1,
    h.2.2.2.2.2.2.2.2.2.2.2.2.2.2.2.1⟩

/-! ## Purchase handler characterization -/

/-- With no bound referrer the referral step credits nothing: the supplied
record is returned untouched, the bonus is zero and the whole after-fee
amount goes to the pot. -/
theorem apply_referral_none (a : Nat) (rso : Option PlayerState) (r : Nat) :
    apply_referral a none rso r = Except.ok (rso, 0, a) := by
  cases rso <;> rfl

/-- The referral step always splits the after-fee amount exactly between
the bonus and the pot contribution. -/
theorem apply_referral_ok {a : Nat} {pref : Option Nat}
    {rso rso' : Option PlayerState} {r bonus potc : Nat}
    (h : apply_referral a pref rso r = Except.ok (rso', bonus, potc)) :
    bonus + potc = a := by
  unfold apply_referral at h
  repeat' split at h
  all_goals try exact Except.noConfusion h
  all_goals
    simp only [Except.ok.injEq, Prod.mk.injEq] at h
    simp_all [checked_sub_some, checked_add_u64_some]

/-- A successful purchase core moves exactly the gross cost out of the
buyer: the protocol-fee transfer plus the vault transfer equal the cost. -/
theorem execute_purchase_money {g : GameState} {p : PlayerState}
    {rso : Option PlayerState} {buyer qty : Nat} {now : Int} {out : BuyResult}
    (h : execute_purchase g p rso buyer qty now = Except.ok out) :
    out.fee_transfer + out.vault_transfer = out.cost := by
  simp only [execute_purchase] at h
  repeat' split at h
  all_goals try exact Except.noConfusion h
  all_goals
    simp only [Except.ok.injEq] at h
    subst h
    simp_all [checked_sub_some]

/-- Every successful purchase request (including the no-op and
registration-only paths, where all three are zero) satisfies
`fee_transfer + vault_transfer = cost`. -/
theorem handle_buy_keys_money {g : GameState} {p : PlayerState}
    {rso : Option PlayerState} {buyer qty : Nat} {ag : Bool} {now : Int}
    {out : BuyResult}
    (h : handle_buy_keys g p rso buyer qty ag now = Except.ok out) :
    out.fee_transfer + out.vault_transfer = out.cost := by
  simp only [handle_buy_keys] at h
  repeat' split at h
  all_goals try exact Except.noConfusion h
  · simp only [Except.ok.injEq] at h; subst h; rfl
  · simp only [Except.ok.injEq] at h; subst h; rfl
  · exact execute_purchase_money h

/-- A successful referral-earnings claim pays out at most the vault
balance. -/
theorem handle_claim_referral_le {g : GameState} {p : PlayerState} {c : Nat}
    {now : Int} {v : Nat} {g' : GameState} {p' : PlayerState} {amt : Nat}
    (h : handle_claim_referral_earnings g p c now v = Except.ok (g', p', amt)) :
    amt ≤ v := by
  simp only [handle_claim_referral_earnings] at h
  repeat' split at h
  all_goals try exact Except.noConfusion h
  all_goals
    simp only [Except.ok.injEq, Prod.mk.injEq] at h
    simp_all

/-- Every successful operation preserves the money balance
`fees + claimed + vault - costs` of the ledger. -/
theorem step_money {L L' : Ledger} {op : Op} (h : step L op = some L') :
    L'.fees + L'.claimed + L'.vault + L.costs =
      L.fees + L.claimed + L.vault + L'.costs := by
  cases op with
  | buy buyer qty referrer ag now =>
    simp only [step] at h
    repeat' split at h
    all_goals try exact Option.noConfusion h
    all_goals
      simp only [Option.some.injEq] at h
      subst h
      have hm := handle_buy_keys_money
        (show handle_buy_keys _ _ _ _ _ _ _ = Except.ok _ from by assumption)
      simp only []
      omega
  | claim caller now =>
    simp only [step] at h
    repeat' split at h
    all_goals try exact Option.noConfusion h
    all_goals
      simp only [Option.some.injEq] at h
      subst h
      have hm := handle_claim_ok
        (show handle_claim _ _ _ _ _ = Except.ok _ from by assumption)
      obtain ⟨-, -, -, -, hle, -⟩ := hm
      simp only []
      omega
  | claimReferral caller now =>
    simp only [step] at h
    repeat' split at h
    all_goals try exact Option.noConfusion h
    all_goals
      simp only [Option.some.injEq] at h
      subst h
      have hle := handle_claim_referral_le
        (show handle_claim_referral_earnings _ _ _ _ _ = Except.ok _ from by
          assumption)
      simp only []
      omega

/-- Running any successful operation sequence preserves the money balance
`fees + claimed + vault - costs`. -/
theorem run_money {L L' : Ledger} (ops : List Op) (h : run L ops = some L') :
    L'.fees + L'.claimed + L'.vault + L.costs =
      L.fees + L.claimed + L.vault + L'.costs := by
  induction ops generalizing L with
  | nil =>
    unfold run at h
    simp only [Option.some.injEq] at h
    subst h
    rfl
  | cons op ops ih =>
    unfold run at h
    split at h
    · exact Option.noConfusion h
    · rename_i L1 hstep
      have h1 := step_money hstep
      have h2 := ih h
      omega

/-- C1: Conservation of value per round — (1) for every operation sequence
(purchases, claims and referral claims) run from a fresh round ledger, the
protocol fees transferred out plus all amounts paid out by claims and
referral claims plus the final vault balance EXACTLY equal the gross
purchase costs paid in (the transfer layer loses nothing, so the shortfall
is 0, within the claimed dust bounds); and (2) for each single purchase
waterfall with pot-split rates summing to 10000 bps,
`protocol_fee + referral_bonus + winner_share + dividend_share +
carry_share ≤ cost` with a difference of at most 3 units. -/
theorem buy_claim_conservation :
    (∀ (g0 : GameState) (ops : List Op) (L : Ledger),
      run (initLedger g0) ops = some L →
      L.fees + L.claimed + L.vault = L.costs) ∧
    (∀ cost fbps rbps wb db nb fee after bonus potc w d n : Nat,
      wb + db + nb = 10000 →
      calculate_bps_split cost fbps = some fee →
      checked_sub cost fee = some after →
      calculate_bps_split after rbps = some bonus →
      checked_sub after bonus = some potc →
      calculate_bps_split potc wb = some w →
      calculate_bps_split potc db = some d →
      calculate_bps_split potc nb = some n →
      fee + bonus + w + d + n ≤ cost ∧
      cost - (fee + bonus + w + d + n) ≤ 3) := by
  constructor
  · intro g0 ops L h
    have hm := run_money ops h
    simp only [initLedger] at hm
    omega
  · intro cost fbps rbps wb db nb fee after bonus potc w d n hbps hfee hsub
      hbonus hsub2 hw hd hn
    obtain ⟨hfle, hafter⟩ := checked_sub_some.mp hsub
    obtain ⟨hble, hpotc⟩ := checked_sub_some.mp hsub2
    have hweq := calculate_bps_split_eq hw
    have hdeq := calculate_bps_split_eq hd
    have hneq := calculate_bps_split_eq hn
    subst hweq hdeq hneq
    have h1 := Nat.div_add_mod (potc * wb) 10000
    have h2 := Nat.div_add_mod (potc * db) 10000
    have h3 := Nat.div_add_mod (potc * nb) 10000
    have m1 := Nat.mod_lt (potc * wb) (show 0 < 10000 by norm_num)
    have m2 := Nat.mod_lt (potc * db) (show 0 < 10000 by norm_num)
    have m3 := Nat.mod_lt (potc * nb) (show 0 < 10000 by norm_num)
    have hsum : potc * wb + potc * db + potc * nb = potc * 10000 := by
      rw [← Nat.mul_add, ← Nat.mul_add, hbps]
    omega

/-- C1 witness: the concrete two-operation round balances exactly
(2 + 91 + 7 = 100), and a concrete waterfall at cost 100 with rates
200 / 1000 / 4800 / 4500 / 700 bps accounts 99 of 100 (dust 1 ≤ 3). -/
theorem buy_claim_conservation_witness :
    run (initLedger gActive) [Op.buy 5 1 none false 0, Op.claim 5 2000] =
      some LW ∧
    LW.fees + LW.claimed + LW.vault = LW.costs ∧
    ((2 : Nat) + 9 + 42 + 40 + 6 ≤ 100 ∧
      (100 : Nat) - (2 + 9 + 42 + 40 + 6) ≤ 3) :=
  ⟨by rfl,
   buy_claim_conservation.1 gActive [Op.buy 5 1 none false 0, Op.claim 5 2000]
     LW (by rfl),
   buy_claim_conservation.2 100 200 1000 4800 4500 700 2 98 9 89 42 40 6
     (by decide) (by decide) (by decide) (by decide) (by decide) (by decide)
     (by decide) (by decide)⟩

/-- A successful cost computation always fits in a u64. -/
theorem calculate_cost_le {k n bp inc c : Nat}
    (h : calculate_cost k n bp inc = some c) : c ≤ U64_MAX := by
  unfold calculate_cost at h
  repeat' split at h
  all_goals try exact Option.noConfusion h
  all_goals simp_all [u64_try_from_some]

/-- A bps split of a u64 amount at a rate of at most 10000 bps always
succeeds and never exceeds the amount. -/
theorem calculate_bps_split_total {a bps : Nat} (ha : a ≤ U64_MAX)
    (hb : bps ≤ 10000) :
    calculate_bps_split a bps = some (a * bps / 10000) ∧
    a * bps / 10000 ≤ a := by
  have hle : a * bps / 10000 ≤ a := by
    calc a * bps / 10000 ≤ a * 10000 / 10000 :=
      Nat.div_le_div_right (Nat.mul_le_mul_left a hb)
    _ = a := Nat.mul_div_cancel a (by norm_num)
  have hprod : a * bps ≤ U128_MAX := by
    calc a * bps ≤ U64_MAX * 10000 :=
      Nat.mul_le_mul ha hb
    _ ≤ U128_MAX := by unfold U64_MAX U128_MAX; norm_num
  refine ⟨?_, hle⟩
  unfold calculate_bps_split checked_mul_u128 checked_div_u128 u64_try_from
  rw [if_pos hprod]
  simp only [show (10000 : Nat) ≠ 0 by norm_num, if_neg, if_false]
  rw [if_pos (le_trans hle ha)]

/-- With a bound referrer but no supplied referrer record, the referral
step rejects the purchase with `ReferrerMismatch`. -/
theorem apply_referral_absent (a r rb : Nat) :
    apply_referral a (some r) none rb =
      Except.error FomoltError.ReferrerMismatch := rfl

/-- An already-registered in-round buyer's purchase request reduces to the
purchase core (no registration effects). -/
theorem handle_buy_keys_in_round {g : GameState} {p : PlayerState}
    {rso : Option PlayerState} {buyer qty : Nat} {ag : Bool} {now : Int}
    (hnow : ¬ g.timer_end ≤ now) (hact : g.active = true)
    (hpp : p.player = buyer) (hb0 : buyer ≠ 0)
    (hcr : p.current_round = g.round) (hr0 : g.round ≠ 0) (hq : qty ≠ 0) :
    handle_buy_keys g p rso buyer qty ag now =
      execute_purchase g { p with is_agent := ag } rso buyer qty now := by
  simp only [handle_buy_keys, handle_registration, hpp, hcr]
  rw [if_neg hnow]
  simp [hact, hb0, hr0, hq]
  rw [hpp, hcr]

/-- A buyer with no bound referrer gets a zero referral bonus: the whole
vault transfer is the pot contribution, the supplied referrer record is
echoed untouched, and the buyer's referrer field stays unset. -/
theorem execute_purchase_unbound {g : GameState} {p : PlayerState}
    {rso : Option PlayerState} {buyer qty : Nat} {now : Int} {out : BuyResult}
    (href : p.referrer = none)
    (h : execute_purchase g p rso buyer qty now = Except.ok out) :
    out.referral_bonus_paid = 0 ∧ out.pot_contribution = out.vault_transfer ∧
    out.referrer = rso ∧ out.player.referrer = none := by
  simp only [execute_purchase, href, apply_referral_none] at h
  repeat' split at h
  all_goals try exact Except.noConfusion h
  all_goals (simp only [Except.ok.injEq] at h; subst h; simp [href])

/-- Registration of an existing (non-fresh) player record does not look at
the supplied referrer record. -/
theorem handle_registration_same {g : GameState} {p : PlayerState}
    {rs : PlayerState} {buyer : Nat} (hp0 : p.player ≠ 0) :
    handle_registration g p (some rs) buyer =
      handle_registration g p none buyer := by
  unfold handle_registration
  rw [if_neg hp0, if_neg hp0]

/-- Registration of an existing (non-fresh) player record preserves the
referrer binding. -/
theorem handle_registration_referrer {g : GameState} {p : PlayerState}
    {rso : Option PlayerState} {buyer : Nat} {g1 : GameState}
    {p1 : PlayerState} (hp0 : p.player ≠ 0)
    (h : handle_registration g p rso buyer = Except.ok (g1, p1)) :
    p1.referrer = p.referrer := by
  unfold handle_registration at h
  rw [if_neg hp0] at h
  repeat' split at h
  all_goals try exact Except.noConfusion h
  all_goals
    simp only [Except.ok.injEq, Prod.mk.injEq] at h
    obtain ⟨h1, h2⟩ := h
    subst h2
    rfl

/-- For a buyer with no bound referrer, the purchase core with a supplied
referrer record equals the one without it, up to the echoed record. -/
theorem execute_purchase_mask {g : GameState} {p : PlayerState}
    (rso : Option PlayerState) {buyer qty : Nat} {now : Int}
    (href : p.referrer = none) :
    (execute_purchase g p rso buyer qty now).map
        (fun o => { o with referrer := none }) =
      execute_purchase g p none buyer qty now := by
  simp only [execute_purchase, href, apply_referral_none]
  repeat' split
  all_goals rfl

/-- C4 counterexample: a non-zero purchase by a buyer with a bound
referrer whose referrer record is NOT supplied does not succeed — it fails
with `ReferrerMismatch` (the handler requires the record whenever a
referrer is bound). -/
theorem absent_referrer_rejected_cex :
    handle_buy_keys gActive pReferred none 5 1 false 0 =
      Except.error FomoltError.ReferrerMismatch := by rfl

/-- Registration never changes the referral-bonus rate snapshot. -/
theorem handle_registration_bps {g : GameState} {p : PlayerState}
    {rso : Option PlayerState} {buyer : Nat} {g1 : GameState}
    {p1 : PlayerState}
    (h : handle_registration g p rso buyer = Except.ok (g1, p1)) :
    g1.referral_bonus_bps = g.referral_bonus_bps := by
  unfold handle_registration at h
  repeat' split at h
  all_goals try exact Except.noConfusion h
  all_goals
    simp only [Except.ok.injEq, Prod.mk.injEq] at h
    obtain ⟨h1, h2⟩ := h
    subst h1
    rfl

/-- A settled (sentinel-0) returning buyer's non-zero purchase reduces to
the purchase core against the re-entered record. -/
theorem handle_buy_keys_returning {g : GameState} {p : PlayerState}
    {rso : Option PlayerState} {buyer qty : Nat} {ag : Bool} {now : Int}
    (hnow : ¬ g.timer_end ≤ now) (hact : g.active = true)
    (hpp : p.player = buyer) (hb0 : buyer ≠ 0)
    (hcr : p.current_round = 0) (htp : g.total_players + 1 ≤ U32_MAX)
    (hq : qty ≠ 0) :
    handle_buy_keys g p rso buyer qty ag now =
      execute_purchase { g with total_players := g.total_players + 1 }
        { p with keys := 0, current_round := g.round, is_agent := ag }
        rso buyer qty now := by
  simp only [handle_buy_keys, handle_registration, hcr]
  rw [if_neg hnow]
  simp [hact, hb0, hq, checked_add_u32, htp, hpp,
    show ¬ p.player = 0 by rw [hpp]; exact hb0]

/-- When the bound referrer's record is supplied, the referral step only
succeeds if the record matches, and then the bonus is exactly
`bps_split(after_fee, referral_bonus_bps)` (possibly flooring to zero)
with `pot_contribution = after_fee - bonus`. -/
theorem apply_referral_bound {a r rb : Nat} {rs : PlayerState}
    {rso' : Option PlayerState} {paid potc : Nat}
    (h : apply_referral a (some r) (some rs) rb = Except.ok (rso', paid, potc)) :
    rs.player = r ∧ paid = a * rb / 10000 ∧ potc = a - paid := by
  unfold apply_referral at h
  repeat' split at h
  all_goals try exact Except.noConfusion h
  all_goals
    have hb := calculate_bps_split_eq
      (show calculate_bps_split a rb = some _ from by assumption)
    simp only [Except.ok.injEq, Prod.mk.injEq] at h
    obtain ⟨h1, h2, h3⟩ := h
    subst h1 h2 h3
    simp_all [checked_sub_some]

/-- A successful purchase core by a buyer with a bound referrer and a
supplied record implies the record matches, and takes the referral branch:
the bonus paid is `bps_split(after_fee, referral_bonus_bps)` and the pot
contribution is the after-fee transfer minus that bonus. -/
theorem execute_purchase_bound {g : GameState} {p : PlayerState}
    {rs : PlayerState} {buyer qty r : Nat} {now : Int} {out : BuyResult}
    (href : p.referrer = some r)
    (h : execute_purchase g p (some rs) buyer qty now = Except.ok out) :
    rs.player = r ∧
    out.referral_bonus_paid =
      out.vault_transfer * g.referral_bonus_bps / 10000 ∧
    out.pot_contribution = out.vault_transfer - out.referral_bonus_paid := by
  simp only [execute_purchase, href] at h
  repeat' split at h
  all_goals try exact Except.noConfusion h
  all_goals
    have hb := apply_referral_bound
      (show apply_referral _ (some r) (some rs) g.referral_bonus_bps =
        Except.ok _ from by assumption)
    simp only [Except.ok.injEq] at h
    subst h
    exact hb

/-- The purchase core never succeeds for a buyer with a bound referrer
when no referrer record is supplied. -/
theorem execute_purchase_absent {g : GameState} {p : PlayerState}
    {buyer qty r : Nat} {now : Int} {out : BuyResult}
    (href : p.referrer = some r)
    (h : execute_purchase g p none buyer qty now = Except.ok out) : False := by
  simp only [execute_purchase, href, apply_referral_absent] at h
  repeat' split at h
  all_goals exact Except.noConfusion h

/-- C4 amended: for a registered buyer (current member of the round, or
settled and re-entering) with a bound referrer whose record is NOT
supplied, a non-zero purchase FAILS with `ReferrerMismatch` rather than
succeeding with a zero bonus; and in every successful non-zero purchase
the referral bonus branch is taken if and only if the buyer has a bound
referrer AND the supplied referrer record matches it — then the bonus is
`bps_split(after_fee, referral_bonus_bps)` (which may floor to zero) and
`pot_contribution = after_fee - bonus`; otherwise the bonus is zero and
`pot_contribution = after_fee`. -/
theorem absent_referrer_behavior (g : GameState) (p : PlayerState)
    (buyer qty r : Nat) (ag : Bool) (now : Int) (cost : Nat)
    (hnow : ¬ g.timer_end ≤ now) (hact : g.active = true)
    (hpp : p.player = buyer) (hb0 : buyer ≠ 0) (hr0 : g.round ≠ 0)
    (hq : qty ≠ 0)
    (hcost : calculate_cost g.total_keys qty g.base_price_lamports
      g.price_increment_lamports = some cost)
    (hfbps : g.protocol_fee_bps ≤ 10000) :
    (p.referrer = some r →
      (p.current_round = g.round ∨
        (p.current_round = 0 ∧ g.total_players + 1 ≤ U32_MAX)) →
      handle_buy_keys g p none buyer qty ag now =
        Except.error FomoltError.ReferrerMismatch) ∧
    (∀ rso out, handle_buy_keys g p rso buyer qty ag now = Except.ok out →
      match p.referrer, rso with
      | some r', some rs =>
          rs.player = r' ∧
          out.referral_bonus_paid =
            out.vault_transfer * g.referral_bonus_bps / 10000 ∧
          out.pot_contribution = out.vault_transfer - out.referral_bonus_paid
      | _, _ =>
          out.referral_bonus_paid = 0 ∧
          out.pot_contribution = out.vault_transfer) := by
  have hp0 : p.player ≠ 0 := by rw [hpp]; exact hb0
  have hcle := calculate_cost_le hcost
  obtain ⟨hsplit, hfle⟩ := calculate_bps_split_total hcle hfbps
  have hsub : checked_sub cost (cost * g.protocol_fee_bps / 10000) =
      some (cost - cost * g.protocol_fee_bps / 10000) :=
    checked_sub_some.mpr ⟨hfle, rfl⟩
  constructor
  · intro href hreg
    rcases hreg with hcr | ⟨hcr, htp⟩
    · rw [handle_buy_keys_in_round hnow hact hpp hb0 hcr hr0 hq]
      simp only [execute_purchase, hcost, hsplit, hsub, href,
        apply_referral_absent]
    · rw [handle_buy_keys_returning hnow hact hpp hb0 hcr htp hq]
      simp only [execute_purchase, hcost, hsplit, hsub, href,
        apply_referral_absent]
  · intro rso out hout
    unfold handle_buy_keys at hout
    rw [if_neg hnow, if_neg (by simp [hact])] at hout
    cases hr : handle_registration g p rso buyer with
    | error e => rw [hr] at hout; exact Except.noConfusion hout
    | ok gp =>
      obtain ⟨g1, p1⟩ := gp
      rw [hr] at hout
      simp only [] at hout
      rw [if_neg hq] at hout
      have hp1 : p1.referrer = p.referrer := handle_registration_referrer hp0 hr
      cases hpr : p.referrer with
      | none =>
        cases rso with
        | none =>
          obtain ⟨hb, hpc, -, -⟩ := execute_purchase_unbound
            (show ({ p1 with is_agent := ag} : PlayerState).referrer = none
              from by rw [show p1.referrer = none from hp1.trans hpr]) hout
          exact ⟨hb, hpc⟩
        | some rs =>
          obtain ⟨hb, hpc, -, -⟩ := execute_purchase_unbound
            (show ({ p1 with is_agent := ag} : PlayerState).referrer = none
              from by rw [show p1.referrer = none from hp1.trans hpr]) hout
          exact ⟨hb, hpc⟩
      | some r' =>
        cases rso with
        | none =>
          exact absurd hout (by
            intro hk
            exact execute_purchase_absent
              (show ({ p1 with is_agent := ag} : PlayerState).referrer = some r'
                from by rw [show p1.referrer = some r' from hp1.trans hpr]) hk)
        | some rs =>
          have hbps : g1.referral_bonus_bps = g.referral_bonus_bps :=
            handle_registration_bps hr
          have hx := execute_purchase_bound
            (show ({ p1 with is_agent := ag} : PlayerState).referrer = some r'
              from by rw [show p1.referrer = some r' from hp1.trans hpr]) hout
          rw [hbps] at hx
          exact hx

/-- C4 amended witness: the bound buyer's record-less purchase fails with
`ReferrerMismatch` both while in the round and when settled/re-entering;
the same buyer's purchase WITH the matching record succeeds, takes the
referral branch and pays bonus 9 = bps_split(98, 1000) with pot
contribution 89 = 98 - 9; and the unbound holder's purchase with a
supplied record pays no bonus. -/
theorem absent_referrer_behavior_witness :
    (handle_buy_keys gActive pReferred none 5 1 false 0 =
      Except.error FomoltError.ReferrerMismatch) ∧
    (handle_buy_keys gActive pReferredSettled none 5 1 false 0 =
      Except.error FomoltError.ReferrerMismatch) ∧
    (handle_buy_keys gActive pReferred (some (pHolder 7)) 5 1 false 0 =
      Except.ok buyBoundW ∧
      ((pHolder 7).player = 7 ∧
        buyBoundW.referral_bonus_paid =
          buyBoundW.vault_transfer * gActive.referral_bonus_bps / 10000 ∧
        buyBoundW.pot_contribution =
          buyBoundW.vault_transfer - buyBoundW.referral_bonus_paid)) ∧
    (buyOutW.referral_bonus_paid = 0 ∧
      buyOutW.pot_contribution = buyOutW.vault_transfer) :=
  have h := absent_referrer_behavior gActive pReferred 5 1 7 false 0 100
    (by decide) (by decide) (by decide) (by decide) (by decide) (by decide)
    (by decide) (by decide)
  have hs := absent_referrer_behavior gActive pReferredSettled 5 1 7 false 0 100
    (by decide) (by decide) (by decide) (by decide) (by decide) (by decide)
    (by decide) (by decide)
  have hu := absent_referrer_behavior gActive (pHolder 5) 5 2 7 false 0 210
    (by decide) (by decide) (by decide) (by decide) (by decide) (by decide)
    (by decide) (by decide)
  ⟨h.1 (by decide) (Or.inl (by decide)),
   hs.1 (by decide) (Or.inr ⟨by decide, by decide⟩),
   ⟨by rfl, h.2 (some (pHolder 7)) buyBoundW (by rfl)⟩,
   hu.2 (some (pHolder 7)) buyOutW (by rfl)⟩

/-- C10: Late referrer supply is silently ignored — for an
already-registered buyer whose referrer field is unset, supplying any
referrer record leaves the operation's outcome identical (up to the echoed
record) to not supplying one: it neither fails because of the record nor
binds it, and every successful purchase credits a zero referral bonus and
leaves the buyer's referrer field unset, so binding can only ever happen
on the very first purchase, when the record is created. -/
theorem late_referrer_ignored (g : GameState) (p rs : PlayerState)
    (buyer qty : Nat) (ag : Bool) (now : Int)
    (hpp : p.player = buyer) (hb0 : buyer ≠ 0) (href : p.referrer = none) :
    (handle_buy_keys g p (some rs) buyer qty ag now).map
        (fun o => { o with referrer := none }) =
      handle_buy_keys g p none buyer qty ag now ∧
    (∀ out, handle_buy_keys g p (some rs) buyer qty ag now = Except.ok out →
      out.player.referrer = none ∧ out.referral_bonus_paid = 0 ∧
      out.referrer = some rs) := by
  have hp0 : p.player ≠ 0 := by rw [hpp]; exact hb0
  constructor
  · unfold handle_buy_keys
    by_cases hnow : g.timer_end ≤ now
    · rw [if_pos hnow, if_pos hnow]; rfl
    · rw [if_neg hnow, if_neg hnow]
      by_cases hact : ¬ g.active
      · rw [if_pos hact, if_pos hact]; rfl
      · rw [if_neg hact, if_neg hact]
        rw [handle_registration_same hp0]
        cases hr : handle_registration g p none buyer with
        | error e => rfl
        | ok gp =>
          obtain ⟨g1, p1⟩ := gp
          have hp1 : p1.referrer = none := by
            rw [handle_registration_referrer hp0 hr, href]
          simp only []
          by_cases hq : qty = 0
          · rw [if_pos hq, if_pos hq]; rfl
          · rw [if_neg hq, if_neg hq]
            exact execute_purchase_mask (some rs)
              (show ({ p1 with is_agent := ag} : PlayerState).referrer = none
                from hp1)
  · intro out hout
    unfold handle_buy_keys at hout
    by_cases hnow : g.timer_end ≤ now
    · rw [if_pos hnow] at hout
      simp only [Except.ok.injEq] at hout
      subst hout
      exact ⟨href, rfl, rfl⟩
    · rw [if_neg hnow] at hout
      by_cases hact : ¬ g.active
      · rw [if_pos hact] at hout
        exact Except.noConfusion hout
      · rw [if_neg hact] at hout
        cases hr : handle_registration g p (some rs) buyer with
        | error e => rw [hr] at hout; exact Except.noConfusion hout
        | ok gp =>
          obtain ⟨g1, p1⟩ := gp
          rw [hr] at hout
          have hp1 : p1.referrer = none := by
            rw [handle_registration_referrer hp0 hr, href]
          simp only [] at hout
          by_cases hq : qty = 0
          · rw [if_pos hq] at hout
            simp only [Except.ok.injEq] at hout
            subst hout
            exact ⟨hp1, rfl, rfl⟩
          · rw [if_neg hq] at hout
            obtain ⟨hb, hpc, hrr, hpr⟩ := execute_purchase_unbound
              (show ({ p1 with is_agent := ag} : PlayerState).referrer = none
                from hp1) hout
            exact ⟨hpr, hb, hrr⟩

/-- C10 witness: player 5 (registered, unbound) buys 2 keys with player
7's record supplied — same outcome as without it, no binding, no bonus. -/
theorem late_referrer_ignored_witness :
    ((handle_buy_keys gActive (pHolder 5) (some (pHolder 7)) 5 2 false 0).map
        (fun o => { o with referrer := none }) =
      handle_buy_keys gActive (pHolder 5) none 5 2 false 0) ∧
    (handle_buy_keys gActive (pHolder 5) (some (pHolder 7)) 5 2 false 0 =
      Except.ok buyOutW) ∧
    (buyOutW.player.referrer = none ∧ buyOutW.referral_bonus_paid = 0 ∧
      buyOutW.referrer = some (pHolder 7)) := by
  have h := late_referrer_ignored gActive (pHolder 5) (pHolder 7) 5 2 false 0
    (by decide) (by decide) (by decide)
  exact ⟨h.1, by rfl, h.2 buyOutW (by rfl)⟩
